import Mathlib

/-!
Verification of the training-loop harness in `ext/training.py`.

The module is sequential glue code: a `TrainerBase` class driving epochs and
steps over an external model and an external statistics tracker (`History`),
with console reporting, checkpointing and a tuning pass; `PyTorchTrainer`
supplies the checkpoint file operations.  We embed the relevant functions
shallowly: pure helpers become Lean functions on `ℚ` (Python floats are
modelled as exact rationals; every concrete value appearing in a claim is
exactly representable), console output becomes `String` values, the
filesystem becomes a map `String → Option P` for an opaque parameter-state
type `P`, and the observable calls a method makes (model mode switches,
forward passes, tracker calls, prints) become an explicit event trace.
-/

/- ## Fixed-point float formatting (Python `%{width}.{prec}f`) -/

/-- Left-pad a string with spaces to a minimum width, as the width field of a
Python `%{width}.{prec}f` conversion does. -/
def padLeft (width : Nat) (s : String) : String :=
  if s.length < width then String.mk (List.replicate (width - s.length) ' ') ++ s else s

/-- Zero-pad the decimal rendering of `n` to `p` digits (the fractional part
of a fixed-point rendering). -/
def zeroPad (p : Nat) (n : Nat) : String :=
  let s := toString n
  String.mk (List.replicate (p - s.length) '0') ++ s

/-- Render the integer `n` (the value scaled by `10 ^ prec`) as a fixed-point
decimal with `prec` fractional digits, sign first, space-padded to `width`. -/
def formatInt (width prec : Nat) (n : ℤ) : String :=
  let sign := if n < 0 then "-" else ""
  let m : ℕ := n.natAbs
  padLeft width (sign ++ toString (m / 10 ^ prec) ++ "." ++ zeroPad prec (m % 10 ^ prec))

/-- Python `%{width}.{prec}f` fixed-point formatting, on exact rationals:
round the value to `prec` decimal digits (round to nearest; every value
rounded in this development is exactly representable, so the tie-breaking
rule is never exercised) and render it space-padded to `width`. -/
def formatFixed (width prec : Nat) (q : ℚ) : String :=
  formatInt width prec (round (q * (10 : ℚ) ^ prec))

/- ## `pretty_time` -/

/-- `pretty_time` from `ext/training.py`: render a number of seconds with the
unit chosen by the nested conditionals `secs < 60.0`, `secs < 3600.0`,
`secs < 86400.0`, formatting with `%4.2f` (`%3.2f` for days). -/
def pretty_time (secs : ℚ) : String :=
  if secs < 60 then formatFixed 4 2 secs ++ " secs"
  else if secs < 3600 then formatFixed 4 2 (secs / 60) ++ " mins"
  else if secs < 86400 then formatFixed 4 2 (secs / 60 / 60) ++ " hrs"
  else formatFixed 3 2 (secs / 60 / 60 / 24) ++ " days"

/-- Which of the four branches of the conditional chain of `pretty_time` is
taken (0 = secs, 1 = mins, 2 = hrs, 3 = days); the conditions are those of
`pretty_time` verbatim. -/
def pretty_time_branch (secs : ℚ) : ℕ :=
  if secs < 60 then 0
  else if secs < 3600 then 1
  else if secs < 86400 then 2
  else 3

/- ## End-of-epoch reporting (`_report_epoch` and its call in `_end_epoch`) -/

/-- `TrainerBase._report_epoch` body: the single line it prints, built from
its three formal parameters `avg_time`, `change_loss`, `change_acc` with the
format `%s%10.5f` / `%s%6.4f%%` and a `+` sign prefix on positive changes
(the `np.average` applied to the scalar average time is the identity and is
dropped). -/
def report_epoch (avg_time change_loss change_acc : ℚ) : String :=
  "\t\t\t" ++ (if change_loss > 0 then "+" else "") ++ formatFixed 10 5 change_loss ++
    "\t\t" ++ (if change_acc > 0 then "+" else "") ++ formatFixed 6 4 change_acc ++
    "%\t" ++ pretty_time avg_time ++ "\t"

/-- The six-tuple returned by `history.end_epoch(time_taken)` (external
tracker, interface only). -/
structure EndEpochResult where
  avg_time : ℚ
  avg_loss : ℚ
  change_loss : ℚ
  avg_acc : ℚ
  change_acc : ℚ
  is_best : Bool

/-- The end-of-epoch line as `TrainerBase._end_epoch` actually produces it:
it calls `self._report_epoch(avg_time, avg_loss, change_loss)`, so the second
formal parameter (`change_loss`) receives `avg_loss` and the third
(`change_acc`) receives `change_loss`. -/
def end_epoch_report (r : EndEpochResult) : String :=
  report_epoch r.avg_time r.avg_loss r.change_loss

/-- Modelled from the spec: the end-of-epoch line the spec describes, showing
the signed `change_loss` and `change_acc` values returned by the tracker call
`end_epoch` (this is what a call `_report_epoch(avg_time, change_loss,
change_acc)` would print). -/
def spec_end_epoch_report (r : EndEpochResult) : String :=
  report_epoch r.avg_time r.change_loss r.change_acc

/- ## Checkpoint paths and the PyTorch checkpoint/load operations -/

/-- `TrainerBase.ckpt_path`: `os.path.join(ckpt_dir, model.name + under +
(best or latest))`, modelled for a directory path without a trailing
separator. -/
def ckpt_path (ckpt_dir model_name : String) (is_best : Bool) : String :=
  ckpt_dir ++ "/" ++ model_name ++ "_" ++ (if is_best then "best" else "latest")

/-- `PyTorchTrainer._checkpoint`: `torch.save` the current parameter state to
the latest path, and additionally to the best path when `is_best`.  The
filesystem is a map from paths to stored parameter states. -/
def PyTorchTrainer._checkpoint {P : Type} (fs : String → Option P)
    (ckpt_dir model_name : String) (state_dict : P) (is_best : Bool) :
    String → Option P :=
  let fs1 : String → Option P :=
    fun p => if p = ckpt_path ckpt_dir model_name false then some state_dict else fs p
  if is_best then
    fun p => if p = ckpt_path ckpt_dir model_name true then some state_dict else fs1 p
  else fs1

/-- `PyTorchTrainer._load_last`: `torch.load` from the latest path; `none`
models the `torch.load` failure when the file does not exist. -/
def PyTorchTrainer._load_last {P : Type} (fs : String → Option P)
    (ckpt_dir model_name : String) : Option P :=
  fs (ckpt_path ckpt_dir model_name false)

/-- The model parameter state after `TrainerBase.__init__` (as inherited by
`PyTorchTrainer`): if `history.global_step > 1` the latest checkpoint is
loaded via `_load_last`, otherwise the parameters passed in are kept.  The
`model.cuda()` device move performed by `PyTorchTrainer.__init__` does not
change parameter values and is not modelled. -/
def TrainerBase.init {P : Type} (global_step : ℕ) (params : P)
    (fs : String → Option P) (ckpt_dir model_name : String) : Option P :=
  if global_step > 1 then PyTorchTrainer._load_last fs ckpt_dir model_name
  else some params

/- ## Step bookkeeping: progress percent, steps remaining, report cadence -/

/-- `TrainerBase.progress_percent`: `int(np.ceil(((global_step mod
batches_per_epoch) / batches_per_epoch * 100) / 10.0) * 10)`. -/
def progress_percent (global_step batches_per_epoch : ℕ) : ℤ :=
  ⌈((global_step % batches_per_epoch : ℕ) : ℚ) / (batches_per_epoch : ℚ) * 100 / 10⌉ * 10

/-- `TrainerBase.steps_remaining`: `batches_per_epoch - global_step mod
batches_per_epoch` (both operands are nonnegative Python ints). -/
def steps_remaining (global_step batches_per_epoch : ℕ) : ℕ :=
  batches_per_epoch - global_step % batches_per_epoch

/-- `TrainerBase.report_every`: `int(np.floor(batches_per_epoch / 10))`,
which on a nonnegative integer is floor division by 10. -/
def report_every (batches_per_epoch : ℕ) : ℕ :=
  batches_per_epoch / 10

/-- Errors the harness can raise: the `NotImplementedError` of the abstract
base methods (with its message) and the `ZeroDivisionError` of a Python
`mod` by zero. -/
inductive TrainerError
  | notImplemented (msg : String)
  | zeroDivision
  deriving DecidableEq

/-- `TrainerBase._report_step`: if `global_step mod report_every == 0`, print
the progress line `%s%%:\t\t%8.5f\t%8.5f\t%6.4f%%\t%6.4f%%\t%s\t%s` with the
percent complete, the batch and average loss, the batch and average accuracy
(times 100), the average step time and the estimated remaining time; `some`
is the printed line, `none` means no line.  When `report_every` is zero the
Python `mod` raises `ZeroDivisionError`; since Python evaluates the `mod`
before the comparison, that case is checked first. -/
def report_step (global_step : ℕ) (loss avg_loss acc avg_acc avg_time : ℚ)
    (batches_per_epoch : ℕ) : Except TrainerError (Option String) :=
  if report_every batches_per_epoch = 0 then .error .zeroDivision
  else if global_step % report_every batches_per_epoch = 0 then
    .ok (some (toString (progress_percent global_step batches_per_epoch) ++ "%:\t\t" ++
      formatFixed 8 5 loss ++ "\t" ++
      formatFixed 8 5 avg_loss ++ "\t" ++
      formatFixed 6 4 (acc * 100) ++ "%\t" ++
      formatFixed 6 4 (avg_acc * 100) ++ "%\t" ++
      pretty_time avg_time ++ "\t" ++
      pretty_time (avg_time * (steps_remaining global_step batches_per_epoch : ℚ))))
  else .ok none

/- ## Event traces for the tuning pass and the abstract base methods -/

/-- Observable actions of the harness: model mode switches, a forward pass on
a batch (batches are opaque, identified by a number), an optimizer update, a
`history.end_tuning` call with the accuracy fed to it, and a printed line. -/
inductive Event
  | setEval
  | setTrain
  | forward (batch : ℕ)
  | optimize
  | endTuningCall (acc : ℚ)
  | printLine (line : String)
  deriving DecidableEq

/-- The external model, reduced to the only part of `model.forward` the
tuning pass consumes: the accuracy component (third of the returned triple)
for each batch. -/
structure Model where
  fwdAcc : ℕ → ℚ

/-- The batch loop of `TrainerBase._tune`: for each batch call
`model.forward` and add its accuracy to the running `cum_acc`; returns the
final accumulator together with the trace of forward passes. -/
def tune_batches (M : Model) : List ℕ → ℚ → ℚ × List Event
  | [], cum_acc => (cum_acc, [])
  | b :: rest, cum_acc =>
    let r := tune_batches M rest (cum_acc + M.fwdAcc b)
    (r.1, Event.forward b :: r.2)

/-- The line printed by `TrainerBase._tune`: `Average tuning accuracy:
%5.3f%% (%s%5.3f%%)` with a `+` prefix on a positive change. -/
def tune_summary (avg_acc change_acc : ℚ) : String :=
  "Average tuning accuracy: " ++ formatFixed 5 3 (avg_acc * 100) ++ "% (" ++
    (if change_acc > 0 then "+" else "") ++ formatFixed 5 3 (change_acc * 100) ++ "%)"

/-- `TrainerBase._tune` on one tuning data source: run every batch through
the forward pass accumulating accuracy, divide by the batch count, feed the
result to `history.end_tuning` (threading the tracker state `st` of abstract
type `σ`, with `end_tuning` returning the new state, the running-average
tuning accuracy and its change), and print the summary line.  The result is
the new tracker state and the trace of observable actions. -/
def _tune {σ : Type} (M : Model) (end_tuning : σ → ℚ → σ × ℚ × ℚ) (st : σ)
    (tune_loader : List ℕ) : σ × List Event :=
  let r := tune_batches M tune_loader 0
  let tuning_acc := r.1 / (tune_loader.length : ℚ)
  let t := end_tuning st tuning_acc
  (t.1, r.2 ++ [Event.endTuningCall tuning_acc,
                Event.printLine (tune_summary t.2.1 t.2.2)])

/-- The `for tune_loader in self.tune_loader` loop of `TrainerBase._tuning`:
`_tune` each source in order, threading the tracker state. -/
def tune_each {σ : Type} (M : Model) (end_tuning : σ → ℚ → σ × ℚ × ℚ) (st : σ) :
    List (List ℕ) → σ × List Event
  | [] => (st, [])
  | l :: ls =>
    let r1 := _tune M end_tuning st l
    let r2 := tune_each M end_tuning r1.1 ls
    (r2.1, r1.2 ++ r2.2)

/-- The `tune_loader` collaborator: `isinstance(self.tune_loader, list)`
distinguishes a single data source from a list of them. -/
inductive TuneLoader
  | single (loader : List ℕ)
  | multi (loaders : List (List ℕ))

/-- The configured tuning sources as a list, one entry per data source. -/
def TuneLoader.sources : TuneLoader → List (List ℕ)
  | .single l => [l]
  | .multi ls => ls

/-- `TrainerBase._tuning`: `model.eval()`, then `_tune` on the single source
or on each source of the list, then `model.train()`. -/
def _tuning {σ : Type} (M : Model) (end_tuning : σ → ℚ → σ × ℚ × ℚ) (st : σ)
    (tl : TuneLoader) : σ × List Event :=
  let body :=
    match tl with
    | .multi ls => tune_each M end_tuning st ls
    | .single l => _tune M end_tuning st l
  (body.1, Event.setEval :: body.2 ++ [Event.setTrain])

/-- Modelled from the spec: the trace of one tuning source as §4.1 describes
it — every batch through the forward pass, the sum of the per-batch
accuracies divided by the batch count fed to the tracker, one summary line. -/
def spec_tune_source {σ : Type} (M : Model) (end_tuning : σ → ℚ → σ × ℚ × ℚ)
    (st : σ) (l : List ℕ) : σ × List Event :=
  let acc := (l.map M.fwdAcc).sum / (l.length : ℚ)
  let t := end_tuning st acc
  (t.1, l.map Event.forward ++ [Event.endTuningCall acc,
                                Event.printLine (tune_summary t.2.1 t.2.2)])

/-- Modelled from the spec: the per-source traces in order, threading the
tracker state. -/
def spec_tune_sources {σ : Type} (M : Model) (end_tuning : σ → ℚ → σ × ℚ × ℚ)
    (st : σ) : List (List ℕ) → σ × List Event
  | [] => (st, [])
  | l :: ls =>
    let r1 := spec_tune_source M end_tuning st l
    let r2 := spec_tune_sources M end_tuning r1.1 ls
    (r2.1, r1.2 ++ r2.2)

/-- Modelled from the spec: the whole tuning pass — switch to evaluation
mode, process every source, switch back to training mode. -/
def spec_tuning_pass {σ : Type} (M : Model) (end_tuning : σ → ℚ → σ × ℚ × ℚ)
    (st : σ) (sources : List (List ℕ)) : σ × List Event :=
  let body := spec_tune_sources M end_tuning st sources
  (body.1, Event.setEval :: body.2 ++ [Event.setTrain])

/- ## Abstract base methods (`raise NotImplementedError`) -/

/-- `TrainerBase._checkpoint`: its whole body is `raise NotImplementedError`,
so for any argument it produces no observable action and the error. -/
def TrainerBase._checkpoint (is_best : Bool) : List Event × Except TrainerError Unit :=
  ([], .error (.notImplemented "Deriving classes must implement."))

/-- `TrainerBase._load_last`: its whole body is `raise NotImplementedError`. -/
def TrainerBase._load_last : List Event × Except TrainerError Unit :=
  ([], .error (.notImplemented "Deriving classes must implement."))

/-- `TrainerBase.step`: its whole body is `raise NotImplementedError`; the
`*args` are the (opaque) batch values. -/
def TrainerBase.step (args : List ℚ) : List Event × Except TrainerError (ℚ × ℚ) :=
  ([], .error (.notImplemented "Deriving classes must implement."))

/- ## Theorems -/

/-- Evaluation helper: `formatFixed` reduces to `formatInt` once the rounding
of the scaled value is known. -/
theorem formatFixed_eq (width prec : Nat) (q : ℚ) (n : ℤ)
    (h : round (q * (10 : ℚ) ^ prec) = n) :
    formatFixed width prec q = formatInt width prec n := by
  simp only [formatFixed, h]

theorem pretty_time_30 : pretty_time 30 = "30.00 secs" := by
  unfold pretty_time
  rw [if_pos (by norm_num : (30 : ℚ) < 60),
    formatFixed_eq 4 2 30 3000 (by norm_num [round_eq])]
  decide

theorem pretty_time_90 : pretty_time 90 = "1.50 mins" := by
  unfold pretty_time
  rw [if_neg (by norm_num : ¬ (90 : ℚ) < 60), if_pos (by norm_num : (90 : ℚ) < 3600),
    formatFixed_eq 4 2 (90 / 60) 150 (by norm_num [round_eq])]
  decide

theorem pretty_time_7200 : pretty_time 7200 = "2.00 hrs" := by
  unfold pretty_time
  rw [if_neg (by norm_num : ¬ (7200 : ℚ) < 60), if_neg (by norm_num : ¬ (7200 : ℚ) < 3600),
    if_pos (by norm_num : (7200 : ℚ) < 86400),
    formatFixed_eq 4 2 (7200 / 60 / 60) 200 (by norm_num [round_eq])]
  decide

theorem pretty_time_172800 : pretty_time 172800 = "2.00 days" := by
  unfold pretty_time
  rw [if_neg (by norm_num : ¬ (172800 : ℚ) < 60),
    if_neg (by norm_num : ¬ (172800 : ℚ) < 3600),
    if_neg (by norm_num : ¬ (172800 : ℚ) < 86400),
    formatFixed_eq 3 2 (172800 / 60 / 60 / 24) 200 (by norm_num [round_eq])]
  decide

theorem pretty_time_case0 (d : ℚ) (h : d < 60) :
    pretty_time_branch d = 0 ∧ pretty_time d = formatFixed 4 2 d ++ " secs" := by
  unfold pretty_time_branch pretty_time
  constructor <;> rw [if_pos h]

theorem pretty_time_case1 (d : ℚ) (h0 : 60 ≤ d) (h : d < 3600) :
    pretty_time_branch d = 1 ∧ pretty_time d = formatFixed 4 2 (d / 60) ++ " mins" := by
  unfold pretty_time_branch pretty_time
  constructor <;> rw [if_neg (not_lt.mpr h0), if_pos h]

theorem pretty_time_case2 (d : ℚ) (h0 : 3600 ≤ d) (h : d < 86400) :
    pretty_time_branch d = 2 ∧ pretty_time d = formatFixed 4 2 (d / 60 / 60) ++ " hrs" := by
  unfold pretty_time_branch pretty_time
  constructor <;>
    rw [if_neg (not_lt.mpr (by linarith : (60 : ℚ) ≤ d)), if_neg (not_lt.mpr h0), if_pos h]

theorem pretty_time_case3 (d : ℚ) (h0 : 86400 ≤ d) :
    pretty_time_branch d = 3 ∧ pretty_time d = formatFixed 3 2 (d / 60 / 60 / 24) ++ " days" := by
  unfold pretty_time_branch pretty_time
  constructor <;>
    rw [if_neg (not_lt.mpr (by linarith : (60 : ℚ) ≤ d)),
      if_neg (not_lt.mpr (by linarith : (3600 : ℚ) ≤ d)), if_neg (not_lt.mpr h0)]

/-- C2: `pretty_time` is pure, its four sample values are as claimed, and its
branch is selected exactly by the ranges `< 60`, `[60, 3600)`, `[3600,
86400)`, `≥ 86400` (boundary values select the larger unit). -/
theorem pretty_time_spec :
    pretty_time 30 = "30.00 secs" ∧ pretty_time 90 = "1.50 mins" ∧
    pretty_time 7200 = "2.00 hrs" ∧ pretty_time 172800 = "2.00 days" ∧
    ∀ d : ℚ,
      (pretty_time_branch d = 0 ↔ d < 60) ∧
      (pretty_time_branch d = 1 ↔ 60 ≤ d ∧ d < 3600) ∧
      (pretty_time_branch d = 2 ↔ 3600 ≤ d ∧ d < 86400) ∧
      (pretty_time_branch d = 3 ↔ 86400 ≤ d) ∧
      (d < 60 → pretty_time d = formatFixed 4 2 d ++ " secs") ∧
      (60 ≤ d → d < 3600 → pretty_time d = formatFixed 4 2 (d / 60) ++ " mins") ∧
      (3600 ≤ d → d < 86400 → pretty_time d = formatFixed 4 2 (d / 60 / 60) ++ " hrs") ∧
      (86400 ≤ d → pretty_time d = formatFixed 3 2 (d / 60 / 60 / 24) ++ " days") := by
  refine ⟨pretty_time_30, pretty_time_90, pretty_time_7200, pretty_time_172800, ?_⟩
  intro d
  rcases lt_or_le d 60 with h1 | h1
  · obtain ⟨hb, hp⟩ := pretty_time_case0 d h1
    rw [hb]
    refine ⟨by simp [h1], by simp; intro h; linarith, by simp; intro h; linarith,
      by simp; linarith, fun _ => hp,
      fun h _ => absurd h (not_le.mpr h1),
      fun h _ => absurd h (not_le.mpr (by linarith)),
      fun h => absurd h (not_le.mpr (by linarith))⟩
  rcases lt_or_le d 3600 with h2 | h2
  · obtain ⟨hb, hp⟩ := pretty_time_case1 d h1 h2
    rw [hb]
    refine ⟨by simp; linarith, by simp [h1, h2], by simp; intro h; linarith,
      by simp; linarith, fun h => absurd h (not_lt.mpr h1),
      fun _ _ => hp,
      fun h _ => absurd h (not_le.mpr h2),
      fun h => absurd h (not_le.mpr (by linarith))⟩
  rcases lt_or_le d 86400 with h3 | h3
  · obtain ⟨hb, hp⟩ := pretty_time_case2 d h2 h3
    rw [hb]
    refine ⟨by simp; linarith, by simp; intro h; linarith, by simp [h2, h3],
      by simp; linarith, fun h => absurd h (not_lt.mpr (by linarith)),
      fun _ h => absurd h (not_lt.mpr h2),
      fun _ _ => hp,
      fun h => absurd h (not_le.mpr h3)⟩
  · obtain ⟨hb, hp⟩ := pretty_time_case3 d h3
    rw [hb]
    refine ⟨by simp; linarith, by simp; intro h; linarith, by simp; intro h; linarith,
      by simp [h3], fun h => absurd h (not_lt.mpr (by linarith)),
      fun _ h => absurd h (not_lt.mpr (by linarith)),
      fun _ h => absurd h (not_lt.mpr h3),
      fun _ => hp⟩

/-- Witness for C2: the boundary value 60 selects the minutes branch. -/
theorem pretty_time_spec_witness :
    (60 : ℚ) ≤ 60 ∧ (60 : ℚ) < 3600 ∧
      pretty_time 60 = formatFixed 4 2 ((60 : ℚ) / 60) ++ " mins" :=
  ⟨le_refl 60, by norm_num,
    ((pretty_time_spec.2.2.2.2 60).2.2.2.2.2.1 (le_refl 60) (by norm_num))⟩

/-- C1 (code bug): `_end_epoch` calls `self._report_epoch(avg_time, avg_loss,
change_loss)`, so the printed line shows `avg_loss` as the loss change and
`change_loss` as the accuracy change, and `change_acc` never appears.  At the
tracker result `(avg_time, avg_loss, change_loss, avg_acc, change_acc) =
(30, 5, -2, 4/5, 1/10)` the emitted line differs from the line the spec
describes (which would show `change_loss` and `change_acc`). -/
theorem end_epoch_report_bug :
    end_epoch_report ⟨30, 5, -2, 4/5, 1/10, true⟩
        = "\t\t\t+   5.00000\t\t-2.0000%\t30.00 secs\t" ∧
    spec_end_epoch_report ⟨30, 5, -2, 4/5, 1/10, true⟩
        = "\t\t\t  -2.00000\t\t+0.1000%\t30.00 secs\t" ∧
    end_epoch_report ⟨30, 5, -2, 4/5, 1/10, true⟩
      ≠ spec_end_epoch_report ⟨30, 5, -2, 4/5, 1/10, true⟩ := by
  have f1 : formatFixed 10 5 (5 : ℚ) = "   5.00000" :=
    (formatFixed_eq 10 5 5 500000 (by norm_num [round_eq])).trans (by decide)
  have f2 : formatFixed 6 4 (-2 : ℚ) = "-2.0000" :=
    (formatFixed_eq 6 4 (-2) (-20000) (by norm_num [round_eq])).trans (by decide)
  have f3 : formatFixed 10 5 (-2 : ℚ) = "  -2.00000" :=
    (formatFixed_eq 10 5 (-2) (-200000) (by norm_num [round_eq])).trans (by decide)
  have f4 : formatFixed 6 4 ((1 : ℚ) / 10) = "0.1000" :=
    (formatFixed_eq 6 4 (1 / 10) 1000 (by norm_num [round_eq])).trans (by decide)
  have hc : end_epoch_report ⟨30, 5, -2, 4/5, 1/10, true⟩
      = "\t\t\t+   5.00000\t\t-2.0000%\t30.00 secs\t" := by
    simp only [end_epoch_report, report_epoch]
    rw [if_pos (by norm_num : (5 : ℚ) > 0), if_neg (by norm_num : ¬ (-2 : ℚ) > 0),
      f1, f2, pretty_time_30]
    decide
  have hs : spec_end_epoch_report ⟨30, 5, -2, 4/5, 1/10, true⟩
      = "\t\t\t  -2.00000\t\t+0.1000%\t30.00 secs\t" := by
    simp only [spec_end_epoch_report, report_epoch]
    rw [if_neg (by norm_num : ¬ (-2 : ℚ) > 0), if_pos (by norm_num : (1 : ℚ) / 10 > 0),
      f3, f4, pretty_time_30]
    decide
  exact ⟨hc, hs, by rw [hc, hs]; decide⟩

/-- C3: at construction, the model parameters are restored from the latest
checkpoint file `ckpt_dir/model_name_latest` exactly when the tracker records
prior progress (`global_step > 1`); otherwise they are left unchanged. -/
theorem init_resume_spec {P : Type} (global_step : ℕ) (params : P)
    (fs : String → Option P) (ckpt_dir model_name : String) :
    (1 < global_step →
      TrainerBase.init global_step params fs ckpt_dir model_name
        = fs (ckpt_dir ++ "/" ++ model_name ++ "_latest")) ∧
    (global_step ≤ 1 →
      TrainerBase.init global_step params fs ckpt_dir model_name = some params) := by
  have hpath : ckpt_path ckpt_dir model_name false
      = ckpt_dir ++ "/" ++ model_name ++ "_latest" := by
    show ckpt_dir ++ "/" ++ model_name ++ "_" ++ "latest"
        = ckpt_dir ++ "/" ++ model_name ++ "_latest"
    rw [String.append_assoc]
    rfl
  constructor
  · intro h
    unfold TrainerBase.init PyTorchTrainer._load_last
    rw [if_pos h, hpath]
  · intro h
    unfold TrainerBase.init
    rw [if_neg (by omega : ¬ global_step > 1)]

/-- Witness for C3: a resumed run (`global_step = 5`) reads the latest
checkpoint file; a fresh run (`global_step = 0`) keeps its parameters. -/
theorem init_resume_witness :
    (1 < 5 ∧
      TrainerBase.init 5 0 (fun p => if p = "dir/model_latest" then some 42 else none)
          "dir" "model"
        = (fun p => if p = "dir/model_latest" then some 42 else none)
            ("dir" ++ "/" ++ "model" ++ "_latest")) ∧
    ((0 : ℕ) ≤ 1 ∧
      TrainerBase.init 0 7 (fun p => if p = "dir/model_latest" then some 42 else none)
          "dir" "model" = some 7) :=
  ⟨⟨by norm_num,
      (init_resume_spec 5 0 (fun p => if p = "dir/model_latest" then some 42 else none)
        "dir" "model").1 (by norm_num)⟩,
   ⟨by norm_num,
      (init_resume_spec 0 7 (fun p => if p = "dir/model_latest" then some 42 else none)
        "dir" "model").2 (by norm_num)⟩⟩

theorem ckpt_path_len_false (d m : String) :
    (ckpt_path d m false).length = d.length + m.length + 8 := by
  show (d ++ "/" ++ m ++ "_" ++ "latest").length = d.length + m.length + 8
  simp only [String.length_append]
  rw [show ("/" : String).length = 1 from rfl, show ("_" : String).length = 1 from rfl,
    show ("latest" : String).length = 6 from rfl]
  omega

theorem ckpt_path_len_true (d m : String) :
    (ckpt_path d m true).length = d.length + m.length + 6 := by
  show (d ++ "/" ++ m ++ "_" ++ "best").length = d.length + m.length + 6
  simp only [String.length_append]
  rw [show ("/" : String).length = 1 from rfl, show ("_" : String).length = 1 from rfl,
    show ("best" : String).length = 4 from rfl]
  omega

theorem ckpt_path_true_ne_false (d m : String) :
    ckpt_path d m true ≠ ckpt_path d m false := by
  intro h
  have hl := congrArg String.length h
  rw [ckpt_path_len_true, ckpt_path_len_false] at hl
  omega

/-- C4: `_checkpoint` always overwrites the latest file with the current
state; when `is_best` it also overwrites the best file with the same state
(so best and latest then agree); when not, the best file — and every other
path — is untouched. -/
theorem checkpoint_files_spec {P : Type} (fs : String → Option P)
    (d m : String) (sd : P) (is_best : Bool) :
    PyTorchTrainer._checkpoint fs d m sd is_best (ckpt_path d m false) = some sd ∧
    (is_best = true →
      PyTorchTrainer._checkpoint fs d m sd is_best (ckpt_path d m true) = some sd ∧
      PyTorchTrainer._checkpoint fs d m sd is_best (ckpt_path d m true)
        = PyTorchTrainer._checkpoint fs d m sd is_best (ckpt_path d m false)) ∧
    (is_best = false →
      PyTorchTrainer._checkpoint fs d m sd is_best (ckpt_path d m true)
        = fs (ckpt_path d m true)) ∧
    (∀ p, p ≠ ckpt_path d m false → p ≠ ckpt_path d m true →
      PyTorchTrainer._checkpoint fs d m sd is_best p = fs p) := by
  cases is_best
  · refine ⟨?_, ?_, ?_, ?_⟩
    · show (if ckpt_path d m false = ckpt_path d m false then some sd
          else fs (ckpt_path d m false)) = some sd
      exact if_pos rfl
    · intro h; exact absurd h (by simp)
    · intro _
      show (if ckpt_path d m true = ckpt_path d m false then some sd
          else fs (ckpt_path d m true)) = fs (ckpt_path d m true)
      exact if_neg (ckpt_path_true_ne_false d m)
    · intro p hpl _
      show (if p = ckpt_path d m false then some sd else fs p) = fs p
      exact if_neg hpl
  · refine ⟨?_, ?_, ?_, ?_⟩
    · show (if ckpt_path d m false = ckpt_path d m true then some sd
          else if ckpt_path d m false = ckpt_path d m false then some sd
          else fs (ckpt_path d m false)) = some sd
      rw [if_neg (fun h => ckpt_path_true_ne_false d m h.symm), if_pos rfl]
    · intro _
      constructor
      · show (if ckpt_path d m true = ckpt_path d m true then some sd
            else if ckpt_path d m true = ckpt_path d m false then some sd
            else fs (ckpt_path d m true)) = some sd
        rw [if_pos rfl]
      · show (if ckpt_path d m true = ckpt_path d m true then some sd
            else if ckpt_path d m true = ckpt_path d m false then some sd
            else fs (ckpt_path d m true))
          = (if ckpt_path d m false = ckpt_path d m true then some sd
            else if ckpt_path d m false = ckpt_path d m false then some sd
            else fs (ckpt_path d m false))
        rw [if_pos rfl, if_neg (fun h => ckpt_path_true_ne_false d m h.symm), if_pos rfl]
    · intro h; exact absurd h (by simp)
    · intro p hpl hpb
      show (if p = ckpt_path d m true then some sd
          else if p = ckpt_path d m false then some sd else fs p) = fs p
      rw [if_neg hpb, if_neg hpl]

/-- Witness for C4: with `is_best = true` both files hold the new state and a
third path is untouched. -/
theorem checkpoint_files_witness :
    PyTorchTrainer._checkpoint (fun _ => (none : Option ℕ)) "ck" "mod" 9 true
        (ckpt_path "ck" "mod" false) = some 9 ∧
    PyTorchTrainer._checkpoint (fun _ => (none : Option ℕ)) "ck" "mod" 9 true
        (ckpt_path "ck" "mod" true) = some 9 ∧
    PyTorchTrainer._checkpoint (fun _ => (none : Option ℕ)) "ck" "mod" 9 true
        "elsewhere" = none :=
  ⟨(checkpoint_files_spec (fun _ => none) "ck" "mod" 9 true).1,
   ((checkpoint_files_spec (fun _ => none) "ck" "mod" 9 true).2.1 rfl).1,
   (checkpoint_files_spec (fun _ => none) "ck" "mod" 9 true).2.2.2 "elsewhere"
     (by decide) (by decide)⟩

/-- C5: `progress_percent` equals the spec formula
`ceil(100 * (global_step mod batches_per_epoch) / batches_per_epoch / 10) * 10`
and is a multiple of 10 in `[0, 100]`. -/
theorem progress_percent_spec (global_step batches_per_epoch : ℕ)
    (h : 1 ≤ batches_per_epoch) :
    progress_percent global_step batches_per_epoch
        = ⌈100 * ((global_step % batches_per_epoch : ℕ) : ℚ)
            / (batches_per_epoch : ℚ) / 10⌉ * 10 ∧
    (10 : ℤ) ∣ progress_percent global_step batches_per_epoch ∧
    0 ≤ progress_percent global_step batches_per_epoch ∧
    progress_percent global_step batches_per_epoch ≤ 100 := by
  have hb : (0 : ℚ) < (batches_per_epoch : ℚ) := by exact_mod_cast h
  unfold progress_percent
  have hrlt : global_step % batches_per_epoch < batches_per_epoch :=
    Nat.mod_lt _ h
  set r : ℕ := global_step % batches_per_epoch with hr
  have harg : ((r : ℕ) : ℚ) / (batches_per_epoch : ℚ) * 100 / 10
      = 100 * ((r : ℕ) : ℚ) / (batches_per_epoch : ℚ) / 10 := by ring
  have h0 : (0 : ℚ) ≤ ((r : ℕ) : ℚ) / (batches_per_epoch : ℚ) * 100 / 10 := by positivity
  have h10 : ((r : ℕ) : ℚ) / (batches_per_epoch : ℚ) * 100 / 10 ≤ 10 := by
    have hle : ((r : ℕ) : ℚ) / (batches_per_epoch : ℚ) ≤ 1 :=
      div_le_one_of_le (by exact_mod_cast hrlt.le) hb.le
    nlinarith
  have hceil0 : 0 ≤ ⌈((r : ℕ) : ℚ) / (batches_per_epoch : ℚ) * 100 / 10⌉ :=
    Int.ceil_nonneg h0
  have hceil10 : ⌈((r : ℕ) : ℚ) / (batches_per_epoch : ℚ) * 100 / 10⌉ ≤ 10 := by
    rw [Int.ceil_le]
    exact_mod_cast h10
  refine ⟨by rw [harg], dvd_mul_left 10 _, ?_, ?_⟩
  · exact mul_nonneg hceil0 (by norm_num)
  · have := mul_le_mul_of_nonneg_right hceil10 (by norm_num : (0 : ℤ) ≤ 10)
    linarith

/-- Witness for C5: at `global_step = 7`, `batches_per_epoch = 4` the value
is a multiple of 10 in range and matches the spec formula. -/
theorem progress_percent_witness :
    progress_percent 7 4 = ⌈100 * ((7 % 4 : ℕ) : ℚ) / (4 : ℚ) / 10⌉ * 10 ∧
    (10 : ℤ) ∣ progress_percent 7 4 ∧
    0 ≤ progress_percent 7 4 ∧ progress_percent 7 4 ≤ 100 :=
  progress_percent_spec 7 4 (by norm_num)

/-- C6: `steps_remaining` and the in-epoch offset always partition the epoch:
`steps_remaining + (global_step mod batches_per_epoch) = batches_per_epoch`. -/
theorem steps_remaining_spec (global_step batches_per_epoch : ℕ)
    (h : 1 ≤ batches_per_epoch) :
    steps_remaining global_step batches_per_epoch + global_step % batches_per_epoch
      = batches_per_epoch := by
  have := Nat.mod_lt global_step h
  unfold steps_remaining
  omega

/-- Witness for C6 at `global_step = 7`, `batches_per_epoch = 4`. -/
theorem steps_remaining_witness :
    steps_remaining 7 4 + 7 % 4 = 4 :=
  steps_remaining_spec 7 4 (by norm_num)

theorem tune_batches_eq (M : Model) (l : List ℕ) (c : ℚ) :
    tune_batches M l c = (c + (l.map M.fwdAcc).sum, l.map Event.forward) := by
  induction l generalizing c with
  | nil => simp [tune_batches]
  | cons b rest ih =>
    simp only [tune_batches, ih, List.map_cons, List.sum_cons, Prod.mk.injEq]
    exact ⟨by ring, trivial⟩

theorem _tune_eq_spec {σ : Type} (M : Model) (end_tuning : σ → ℚ → σ × ℚ × ℚ)
    (st : σ) (l : List ℕ) :
    _tune M end_tuning st l = spec_tune_source M end_tuning st l := by
  unfold _tune spec_tune_source
  simp only [tune_batches_eq, zero_add]

theorem tune_each_eq_spec {σ : Type} (M : Model) (end_tuning : σ → ℚ → σ × ℚ × ℚ)
    (st : σ) (ls : List (List ℕ)) :
    tune_each M end_tuning st ls = spec_tune_sources M end_tuning st ls := by
  induction ls generalizing st with
  | nil => rfl
  | cons l ls ih => simp only [tune_each, spec_tune_sources, _tune_eq_spec, ih]

theorem _tuning_eq_spec {σ : Type} (M : Model) (end_tuning : σ → ℚ → σ × ℚ × ℚ)
    (st : σ) (tl : TuneLoader) :
    _tuning M end_tuning st tl = spec_tuning_pass M end_tuning st tl.sources := by
  cases tl with
  | single l =>
    simp only [_tuning, TuneLoader.sources, spec_tuning_pass, spec_tune_sources,
      _tune_eq_spec, List.append_nil]
  | multi ls =>
    simp only [_tuning, TuneLoader.sources, spec_tuning_pass, tune_each_eq_spec]

theorem optimize_not_in_spec_source {σ : Type} (M : Model)
    (end_tuning : σ → ℚ → σ × ℚ × ℚ) (st : σ) (l : List ℕ) :
    Event.optimize ∉ (spec_tune_source M end_tuning st l).2 := by
  simp [spec_tune_source]

theorem optimize_not_in_spec_sources {σ : Type} (M : Model)
    (end_tuning : σ → ℚ → σ × ℚ × ℚ) (st : σ) (ls : List (List ℕ)) :
    Event.optimize ∉ (spec_tune_sources M end_tuning st ls).2 := by
  induction ls generalizing st with
  | nil => simp [spec_tune_sources]
  | cons l ls ih =>
    intro h
    simp only [spec_tune_sources] at h
    rcases List.mem_append.mp h with h1 | h2
    · exact optimize_not_in_spec_source M end_tuning st l h1
    · exact ih _ h2

/-- C7: the tuning pass is exactly the sequence: switch to evaluation mode;
for each configured source (whether the collaborator is a single source or a
list), run every batch through the forward pass, sum the per-batch accuracies
and divide by the batch count, feed that value to `end_tuning`, print one
summary line; finally switch back to training mode — and no optimize call
occurs anywhere in the pass. -/
theorem tuning_pass_spec {σ : Type} (M : Model) (end_tuning : σ → ℚ → σ × ℚ × ℚ)
    (st : σ) (tl : TuneLoader) :
    _tuning M end_tuning st tl = spec_tuning_pass M end_tuning st tl.sources ∧
    Event.optimize ∉ (_tuning M end_tuning st tl).2 := by
  refine ⟨_tuning_eq_spec M end_tuning st tl, ?_⟩
  rw [_tuning_eq_spec]
  show Event.optimize ∉
    Event.setEval :: ((spec_tune_sources M end_tuning st tl.sources).2 ++ [Event.setTrain])
  intro h
  rcases List.mem_cons.mp h with h | h
  · exact absurd h (by simp)
  rcases List.mem_append.mp h with h | h
  · exact optimize_not_in_spec_sources M end_tuning st tl.sources h
  · exact absurd h (by simp)

theorem report_step_isSome (gs bpe : ℕ) (loss avg_loss acc avg_acc avg_time : ℚ)
    (h : report_every bpe ≠ 0) :
    (report_step gs loss avg_loss acc avg_acc avg_time bpe).toOption.join.isSome = true
      ↔ gs % report_every bpe = 0 := by
  unfold report_step
  rw [if_neg h]
  by_cases hm : gs % report_every bpe = 0
  · rw [if_pos hm]
    simpa [Except.toOption] using hm
  · rw [if_neg hm]
    simpa [Except.toOption] using hm

theorem filter_map_commute (f : ℕ → ℕ) (p : ℕ → Bool) (l : List ℕ) :
    (l.map f).filter p = (l.filter fun x => p (f x)).map f := by
  induction l with
  | nil => rfl
  | cons a l ih =>
    by_cases hp : p (f a) <;> simp [List.filter_cons, hp, ih]

theorem epoch_reports_100 (k : ℕ) (loss avg_loss acc avg_acc avg_time : ℚ) :
    ((List.range 100).map (fun i => 100 * k + i + 1)).filter
        (fun g => (report_step g loss avg_loss acc avg_acc avg_time 100).toOption.join.isSome)
      = (List.range 10).map (fun j => 100 * k + 10 * (j + 1)) := by
  rw [filter_map_commute]
  have hpred : ∀ i ∈ List.range 100,
      ((report_step (100 * k + i + 1) loss avg_loss acc avg_acc avg_time
          100).toOption.join.isSome)
        = ((i + 1) % 10 == 0) := by
    intro i _
    have hmod : (100 * k + i + 1) % report_every 100 = (i + 1) % 10 := by
      show (100 * k + i + 1) % 10 = (i + 1) % 10
      omega
    by_cases hm : (i + 1) % 10 = 0
    · have h1 : (report_step (100 * k + i + 1) loss avg_loss acc avg_acc avg_time
          100).toOption.join.isSome = true :=
        (report_step_isSome _ 100 loss avg_loss acc avg_acc avg_time
          (by decide)).mpr (by rw [hmod, hm])
      rw [h1, hm]
      decide
    · have h1 : (report_step (100 * k + i + 1) loss avg_loss acc avg_acc avg_time
          100).toOption.join.isSome = false := by
        rw [Bool.eq_false_iff]
        intro hh
        exact hm (by
          have := (report_step_isSome _ 100 loss avg_loss acc avg_acc avg_time
            (by decide)).mp hh
          rwa [hmod] at this)
      rw [h1]
      symm
      rw [Bool.eq_false_iff]
      intro hb
      exact hm (by simpa using hb)
  rw [List.filter_congr hpred,
    show (List.range 100).filter (fun i => (i + 1) % 10 == 0)
        = [9, 19, 29, 39, 49, 59, 69, 79, 89, 99] from by decide,
    show List.range 10 = [0, 1, 2, 3, 4, 5, 6, 7, 8, 9] from rfl]
  simp only [List.map_cons, List.map_nil, List.cons.injEq, and_true]

/-- C8: a progress line is emitted on a step iff `global_step mod report_every
== 0`; with a 100-batch training source (`report_every = 10`) an epoch
starting at global step `100 k` emits exactly 10 lines, at the steps
`100 k + 10, ..., 100 k + 100`. -/
theorem report_cadence_spec (gs bpe : ℕ) (loss avg_loss acc avg_acc avg_time : ℚ)
    (h : report_every bpe ≠ 0) :
    ((report_step gs loss avg_loss acc avg_acc avg_time bpe).toOption.join.isSome = true
        ↔ gs % report_every bpe = 0) ∧
    ∀ k : ℕ,
      ((List.range 100).map (fun i => 100 * k + i + 1)).filter
          (fun g =>
            (report_step g loss avg_loss acc avg_acc avg_time 100).toOption.join.isSome)
        = (List.range 10).map (fun j => 100 * k + 10 * (j + 1)) ∧
      (((List.range 100).map (fun i => 100 * k + i + 1)).filter
          (fun g =>
            (report_step g loss avg_loss acc avg_acc avg_time 100).toOption.join.isSome)).length
        = 10 := by
  refine ⟨report_step_isSome gs bpe loss avg_loss acc avg_acc avg_time h, fun k => ?_⟩
  have he := epoch_reports_100 k loss avg_loss acc avg_acc avg_time
  refine ⟨he, ?_⟩
  rw [he]
  simp

/-- Witness for C8: at global step 20 with 100 batches per epoch a line is
emitted, since 20 mod 10 = 0. -/
theorem report_cadence_witness :
    (report_step 20 0 0 0 0 0 100).toOption.join.isSome = true
      ↔ 20 % report_every 100 = 0 :=
  (report_cadence_spec 20 100 0 0 0 0 0 (by decide)).1

/-- C9: each abstract base method consists solely of a raised
`NotImplementedError` with the source message: for every argument it returns
that error with an empty event trace, so nothing is mutated, written or
invoked before the error surfaces at call time. -/
theorem base_methods_raise :
    (∀ is_best : Bool, TrainerBase._checkpoint is_best
        = ([], Except.error
            (TrainerError.notImplemented "Deriving classes must implement."))) ∧
    TrainerBase._load_last
        = ([], Except.error
            (TrainerError.notImplemented "Deriving classes must implement.")) ∧
    ∀ args : List ℚ, TrainerBase.step args
        = ([], Except.error
            (TrainerError.notImplemented "Deriving classes must implement.")) :=
  ⟨fun _ => rfl, rfl, fun _ => rfl⟩

/-- C10: with fewer than 10 batches per epoch, `report_every` is 0 and the
reporting check of every step is a modulo-by-zero error, so every step
aborts; with at least 10 batches the check always completes —
`batches_per_epoch ≥ 10` is the unstated precondition for a step to
complete. -/
theorem report_every_zero_guard (bpe : ℕ) :
    (bpe < 10 → report_every bpe = 0 ∧
      ∀ (gs : ℕ) (loss avg_loss acc avg_acc avg_time : ℚ),
        report_step gs loss avg_loss acc avg_acc avg_time bpe
          = .error .zeroDivision) ∧
    (10 ≤ bpe → ∀ (gs : ℕ) (loss avg_loss acc avg_acc avg_time : ℚ),
      ∃ o, report_step gs loss avg_loss acc avg_acc avg_time bpe = .ok o) := by
  constructor
  · intro hlt
    have h0 : report_every bpe = 0 := by unfold report_every; omega
    refine ⟨h0, fun gs l al a aa t => ?_⟩
    unfold report_step
    rw [if_pos h0]
  · intro hge gs l al a aa t
    have h0 : report_every bpe ≠ 0 := by unfold report_every; omega
    unfold report_step
    rw [if_neg h0]
    by_cases hm : gs % report_every bpe = 0
    · exact ⟨_, by rw [if_pos hm]⟩
    · exact ⟨none, by rw [if_neg hm]⟩

/-- Witness for C10: 5 batches per epoch abort every step with the zero
division; 10 batches per epoch let the check complete. -/
theorem report_every_zero_guard_witness :
    (report_every 5 = 0 ∧ report_step 3 0 0 0 0 0 5 = .error .zeroDivision) ∧
    ∃ o, report_step 3 0 0 0 0 0 10 = .ok o :=
  ⟨⟨((report_every_zero_guard 5).1 (by norm_num)).1,
    ((report_every_zero_guard 5).1 (by norm_num)).2 3 0 0 0 0 0⟩,
   (report_every_zero_guard 10).2 (by norm_num) 3 0 0 0 0 0⟩
